import Mathlib

/-!
Shallow embedding of the observe/diff/act reconciliation core of the
fastly-tls-operator (package `internal/reconciler/fastlycertificatesync`):
the data model, the action-priority logic of `ApplyUnmanaged`, the
certificate/key/activation observation functions of `fastly.go`, the status
derivation of `FillStatus`, and the helper functions of `helper.go`.

External collaborators (the Fastly HTTP API, the Kubernetes client, and the
Go standard library's PEM/X.509/SHA-1 primitives) are modelled as explicit
parameters: remote inventories are passed as lists, fallible library calls
as `Option`-valued functions, and Go errors as `Except`/`Option` results.
-/

namespace FastlySync

/-- fastly.TLSDomain: only the ID is consumed by the reconciler. -/
structure TLSDomain where
  id : String
  deriving DecidableEq, Repr

/-- fastly.TLSConfiguration: only the ID is consumed by the reconciler. -/
structure TLSConfiguration where
  id : String
  deriving DecidableEq, Repr

/-- fastly.CustomTLSCertificate: the fields consumed by the reconciler. -/
structure CustomTLSCertificate where
  id : String
  name : String
  serialNumber : String
  domains : List TLSDomain
  deriving DecidableEq, Repr

/-- fastly.PrivateKey: the fields consumed by the reconciler. -/
structure PrivateKey where
  id : String
  publicKeySHA1 : String
  deriving DecidableEq, Repr

/-- fastly.TLSActivation: the fields consumed by the reconciler. -/
structure TLSActivation where
  id : String
  domain : TLSDomain
  configuration : TLSConfiguration
  deriving DecidableEq, Repr

/-- CertificateStatus is a Go string type; its zero value is the empty
    string, which is none of the three named constants. -/
abbrev CertificateStatus := String

def CertificateStatusMissing : CertificateStatus := "Missing"

def CertificateStatusStale : CertificateStatus := "Stale"

def CertificateStatusSynced : CertificateStatus := "Synced"

/-- TLSActivationData (logic.go): one desired activation to create. -/
structure TLSActivationData where
  certificate : CustomTLSCertificate
  configuration : TLSConfiguration
  domain : TLSDomain
  deriving DecidableEq, Repr

/-- ObservedState (logic.go); defaults are the Go zero values, which
    `ObserveResources` resets the state to at the start of every pass. -/
structure ObservedState where
  privateKeyUploaded : Bool := false
  certificateStatus : CertificateStatus := ""
  unusedPrivateKeyIDs : List String := []
  missingTLSActivationData : List TLSActivationData := []
  extraTLSActivationIDs : List String := []
  deriving DecidableEq, Repr

/-- The six corrective actions `ApplyUnmanaged` can take in one pass. -/
inductive Action
  | createPrivateKey
  | createCertificate
  | updateCertificate
  | createMissingActivations
  | deleteExtraActivations
  | clearUnusedPrivateKeys
  deriving DecidableEq, Repr

/-- Result of one `ApplyUnmanaged` call: either an error returned from the
    attempted mutation, or the action performed (if any) together with
    whether an immediate (zero-delay) requeue was requested via
    `ctx.SetRequeue(0)`. -/
inductive ApplyResult
  | ok (performed : Option Action) (immediateRequeue : Bool)
  | err (attempted : Action) (msg : String)
  deriving DecidableEq, Repr

/-- Logic.ApplyUnmanaged (logic.go). `fails a = some msg` models the Fastly
    mutation for action `a` returning an error; `clearFastlyUnusedPrivateKeys`
    returns no error in Go, so that branch cannot fail. -/
def applyUnmanaged (subjectReady : Bool) (o : ObservedState)
    (fails : Action → Option String) : ApplyResult :=
  if !subjectReady then .ok none false
  else if !o.privateKeyUploaded then
    match fails .createPrivateKey with
    | some e => .err .createPrivateKey ("failed to create Fastly private key: " ++ e)
    | none => .ok (some .createPrivateKey) true
  else if o.certificateStatus = CertificateStatusMissing then
    match fails .createCertificate with
    | some e => .err .createCertificate ("failed to create Fastly certificate: " ++ e)
    | none => .ok (some .createCertificate) true
  else if o.certificateStatus = CertificateStatusStale then
    match fails .updateCertificate with
    | some e => .err .updateCertificate ("failed to update Fastly certificate: " ++ e)
    | none => .ok (some .updateCertificate) true
  else if o.missingTLSActivationData.length > 0 then
    match fails .createMissingActivations with
    | some e => .err .createMissingActivations ("failed to create Fastly TLS activations: " ++ e)
    | none => .ok (some .createMissingActivations) true
  else if o.extraTLSActivationIDs.length > 0 then
    match fails .deleteExtraActivations with
    | some e => .err .deleteExtraActivations ("failed to delete Fastly TLS activations: " ++ e)
    | none => .ok (some .deleteExtraActivations) true
  else if o.unusedPrivateKeyIDs.length > 0 then
    .ok (some .clearUnusedPrivateKeys) true
  else
    .ok none false

/-- A mutation environment in which every Fastly call succeeds. -/
def noFail : Action → Option String := fun _ => none

/-- A status condition as filled by the status deriver; the Go
    metav1.Condition status strings are used verbatim. -/
structure Condition where
  type : String
  status : String
  reason : String
  message : String
  deriving DecidableEq, Repr

def ConditionTrue : String := "True"

def ConditionFalse : String := "False"

def ConditionUnknown : String := "Unknown"

/-- observePrivateKeyReadyCondition (status filling code). -/
def observePrivateKeyReadyCondition (o : ObservedState) : Condition :=
  if o.privateKeyUploaded then
    { type := "PrivateKeyReady", status := ConditionTrue,
      reason := "PrivateKeyUploaded",
      message := "Private key has been successfully uploaded to Fastly" }
  else
    { type := "PrivateKeyReady", status := ConditionFalse,
      reason := "PrivateKeyMissing",
      message := "Private key needs to be uploaded to Fastly" }

/-- observeCertificateReadyCondition: the Go switch over CertificateStatus,
    whose default branch yields an Unknown condition. -/
def observeCertificateReadyCondition (o : ObservedState) : Condition :=
  if o.certificateStatus = CertificateStatusSynced then
    { type := "CertificateReady", status := ConditionTrue,
      reason := "CertificateSynced",
      message := "Certificate is up-to-date and synced with Fastly" }
  else if o.certificateStatus = CertificateStatusStale then
    { type := "CertificateReady", status := ConditionFalse,
      reason := "CertificateStale",
      message := "Certificate exists in Fastly but is stale and needs to be updated" }
  else if o.certificateStatus = CertificateStatusMissing then
    { type := "CertificateReady", status := ConditionFalse,
      reason := "CertificateMissing",
      message := "Certificate is missing from Fastly and needs to be created" }
  else
    { type := "CertificateReady", status := ConditionUnknown,
      reason := "CertificateStatusUnknown",
      message := "Certificate status could not be determined" }

/-- observeTLSActivationReadyCondition. -/
def observeTLSActivationReadyCondition (o : ObservedState) : Condition :=
  if o.missingTLSActivationData.length > 0 then
    { type := "TLSActivationReady", status := ConditionFalse,
      reason := "TLSActivationsMissing",
      message := "Missing " ++ toString o.missingTLSActivationData.length
        ++ " TLS activations that need to be created" }
  else if o.extraTLSActivationIDs.length > 0 then
    { type := "TLSActivationReady", status := ConditionFalse,
      reason := "TLSActivationsExtra",
      message := "Found " ++ toString o.extraTLSActivationIDs.length
        ++ " extra TLS activations that need to be removed" }
  else
    { type := "TLSActivationReady", status := ConditionTrue,
      reason := "TLSActivationsSynced",
      message := "All TLS activations are properly configured" }

/-- observeCleanupRequiredCondition. -/
def observeCleanupRequiredCondition (o : ObservedState) : Condition :=
  if o.unusedPrivateKeyIDs.length > 0 then
    { type := "CleanupRequired", status := ConditionTrue,
      reason := "UnusedPrivateKeysFound",
      message := "Found " ++ toString o.unusedPrivateKeyIDs.length
        ++ " unused private keys that should be cleaned up" }
  else
    { type := "CleanupRequired", status := ConditionFalse,
      reason := "NoCleanupNeeded",
      message := "No unused private keys found" }

/-- observeReadyCondition: the overall Ready condition, recomputed from the
    ObservedState fields rather than from the other derived conditions. -/
def observeReadyCondition (o : ObservedState) : Condition :=
  if o.privateKeyUploaded
      && decide (o.certificateStatus = CertificateStatusSynced)
      && decide (o.missingTLSActivationData.length = 0)
      && decide (o.extraTLSActivationIDs.length = 0)
      && decide (o.unusedPrivateKeyIDs.length = 0) then
    { type := "Ready", status := ConditionTrue,
      reason := "FastlySyncComplete",
      message := "FastlyCertificateSync is ready and all components are synchronized" }
  else
    { type := "Ready", status := ConditionFalse,
      reason := "FastlySyncIncomplete",
      message := "FastlyCertificateSync is not ready - synchronization in progress" }

/-- The Status.Ready boolean assigned by FillStatus, computed directly from
    the ObservedState fields. -/
def fillStatusReady (o : ObservedState) : Bool :=
  o.privateKeyUploaded
    && decide (o.certificateStatus = CertificateStatusSynced)
    && decide (o.missingTLSActivationData.length = 0)
    && decide (o.extraTLSActivationIDs.length = 0)
    && decide (o.unusedPrivateKeyIDs.length = 0)

/-! ### Paginated remote gateway (fastly.go)

The three listing loops (private keys in `getFastlyPrivateKeyExists`,
certificates in `getFastlyCertificateMatchingSubject`, activations in
`getFastlyDomainAndConfigurationToActivationMap`) share one pattern:
request page N with page size `defaultFastlyPageSize`, append, stop when a
page has fewer items than the page size. The remote inventory is modelled
as the full list `inv`, with page N served as the corresponding slice. -/

def defaultFastlyPageSize : Nat := 20

/-- One page of the remote inventory for a 1-based page number, as the
    provider serves it for page size `defaultFastlyPageSize`. -/
def listPage {α : Type} (inv : List α) (pageNumber : Nat) : List α :=
  (inv.drop ((pageNumber - 1) * defaultFastlyPageSize)).take defaultFastlyPageSize

/-- The shared Go pagination loop. The Go loop is unbounded; `fuel` only
    makes the recursion structural and is chosen large enough (in
    `fetchAllPages`) never to run out. -/
def fetchPagesGo {α : Type} (inv : List α) : Nat → Nat → List α → List α
  | 0, _, acc => acc
  | fuel + 1, pageNumber, acc =>
    let page := listPage inv pageNumber
    if page.length < defaultFastlyPageSize then acc ++ page
    else fetchPagesGo inv fuel (pageNumber + 1) (acc ++ page)

/-- The full paginated listing, starting from page 1 with an empty
    accumulator. -/
def fetchAllPages {α : Type} (inv : List α) : List α :=
  fetchPagesGo inv (inv.length + 1) 1 []

theorem fetchPagesGo_eq {α : Type} (inv : List α) :
    ∀ (fuel pageNumber : Nat) (acc : List α), 1 ≤ pageNumber →
      (inv.drop ((pageNumber - 1) * defaultFastlyPageSize)).length ≤ fuel * defaultFastlyPageSize →
      fetchPagesGo inv fuel pageNumber acc =
        acc ++ inv.drop ((pageNumber - 1) * defaultFastlyPageSize) := by
  intro fuel
  induction fuel with
  | zero =>
    intro pageNumber acc _ hlen
    simp only [Nat.zero_mul, Nat.le_zero] at hlen
    rw [List.eq_nil_of_length_eq_zero hlen]
    simp [fetchPagesGo]
  | succ fuel ih =>
    intro pageNumber acc hpage hlen
    set rem := inv.drop ((pageNumber - 1) * defaultFastlyPageSize) with hrem
    show (if (rem.take defaultFastlyPageSize).length < defaultFastlyPageSize then
        acc ++ rem.take defaultFastlyPageSize
      else fetchPagesGo inv fuel (pageNumber + 1) (acc ++ rem.take defaultFastlyPageSize)) =
      acc ++ rem
    by_cases hshort : (rem.take defaultFastlyPageSize).length < defaultFastlyPageSize
    · rw [if_pos hshort]
      have : rem.length < defaultFastlyPageSize := by
        rw [List.length_take] at hshort
        omega
      rw [List.take_of_length_le (Nat.le_of_lt this)]
    · rw [if_neg hshort]
      have hlong : defaultFastlyPageSize ≤ rem.length := by
        rw [List.length_take] at hshort
        omega
      have hdrop : inv.drop ((pageNumber + 1 - 1) * defaultFastlyPageSize) =
          rem.drop defaultFastlyPageSize := by
        rw [hrem, List.drop_drop]
        congr 1
        simp only [defaultFastlyPageSize]
        omega
      rw [ih (pageNumber + 1) (acc ++ rem.take defaultFastlyPageSize) (by omega)
        (by
          rw [hdrop, List.length_drop]
          simp only [defaultFastlyPageSize] at hlen hlong ⊢
          omega)]
      rw [hdrop, List.append_assoc, List.take_append_drop]

/-- The pagination convention recovers the entire remote inventory: the
    accumulated result of the page loop is never a truncated prefix. -/
theorem fetchAllPages_eq {α : Type} (inv : List α) : fetchAllPages inv = inv := by
  rw [fetchAllPages, fetchPagesGo_eq inv (inv.length + 1) 1 [] (by omega)]
  · simp
  · simp only [Nat.sub_self, Nat.zero_mul, List.drop_zero]
    have : 0 < defaultFastlyPageSize := by decide
    calc inv.length ≤ (inv.length + 1) * 1 := by omega
      _ ≤ (inv.length + 1) * defaultFastlyPageSize :=
          Nat.mul_le_mul_left _ this

/-- getFastlyUnusedPrivateKeyIDs (fastly.go): a single ListPrivateKeys call
    with the server-side in-use filter and no pagination loop. The input is
    the provider's full unused-key inventory; the single unpaginated
    response is modelled as the provider's default page (the Fastly API
    default page size equals `defaultFastlyPageSize`). -/
def getFastlyUnusedPrivateKeyIDs (unusedInv : List PrivateKey) : List String :=
  let privateKeys := unusedInv.take defaultFastlyPageSize
  privateKeys.map (fun k => k.id)

/-! ### Certificate matching (fastly.go)

`getFastlyCertificateMatchingSubject` lists all certificates through the
pagination loop and returns the first one whose Name equals the subject
certificate's name, or nil when none matches. -/

/-- The matching loop: first certificate whose name equals the subject
    certificate's name; `none` is the Go nil result. -/
def findMatchingCert (subjectName : String) :
    List CustomTLSCertificate → Option CustomTLSCertificate
  | [] => none
  | cert :: rest =>
    if cert.name = subjectName then some cert else findMatchingCert subjectName rest

/-- getFastlyCertificateMatchingSubject: paginated listing, then the
    first-match-by-name scan. -/
def getFastlyCertificateMatchingSubject (subjectName : String)
    (certInv : List CustomTLSCertificate) : Option CustomTLSCertificate :=
  findMatchingCert subjectName (fetchAllPages certInv)

/-! ### Activation lookup and diff (fastly.go)

`getFastlyDomainAndConfigurationToActivationMap` builds the Go two-level
map `domain ID -> configuration ID -> activation`; it is embedded as a
single association list keyed by the (domain ID, configuration ID) pair,
which has the same lookup/delete/sweep behaviour for the operations the
diff performs. Later inserts overwrite earlier ones, as in a Go map. -/

abbrev ActKey := String × String

/-- The key under which an activation is stored in the lookup. -/
def actKey (a : TLSActivation) : ActKey := (a.domain.id, a.configuration.id)

abbrev ActLookup := List (ActKey × TLSActivation)

def lookupKeys (m : ActLookup) : List ActKey := m.map (fun e => e.1)

/-- Go map assignment `m[d][c] = a`: overwrite the entry for the key if
    present, otherwise add it. -/
def lookupInsert : ActLookup → ActKey → TLSActivation → ActLookup
  | [], k, a => [(k, a)]
  | e :: rest, k, a =>
    if e.1 = k then (k, a) :: rest else e :: lookupInsert rest k a

/-- Go map membership test `_, exists := m[d][c]`. -/
def lookupHas (m : ActLookup) (k : ActKey) : Bool :=
  m.any (fun e => decide (e.1 = k))

/-- Go map deletion `delete(m[d], c)`. -/
def lookupErase (m : ActLookup) (k : ActKey) : ActLookup :=
  m.filter (fun e => !decide (e.1 = k))

/-- The map-building loop over all fetched activations. -/
def buildLookup (acts : List TLSActivation) : ActLookup :=
  acts.foldl (fun m a => lookupInsert m (actKey a) a) []

/-- getFastlyDomainAndConfigurationToActivationMap: paginated listing of the
    activations for the given certificate, then the map-building loop. -/
def getFastlyDomainAndConfigurationToActivationMap (actInv : List TLSActivation) :
    ActLookup :=
  buildLookup (fetchAllPages actInv)

/-- The desired matrix walked by the nested loops
    `for domain in cert.Domains, for configID in spec.TLSConfigurationIds`,
    flattened into the pair list the nested loops traverse. -/
def desiredPairs (domains : List TLSDomain) (configIDs : List String) :
    List (TLSDomain × String) :=
  domains.flatMap (fun d => configIDs.map (fun c => (d, c)))

/-- The keys of the desired matrix. -/
def desiredKeys (domains : List TLSDomain) (configIDs : List String) : List ActKey :=
  (desiredPairs domains configIDs).map (fun p => (p.1.id, p.2))

/-- The body of the nested loops of `getFastlyTLSActivationState`: walk the
    desired pairs; a pair found in the lookup is removed from it (kept), a
    pair absent from it is appended to the missing list as a
    (certificate, configuration-ID placeholder, domain) triple. -/
def diffLoop (cert : CustomTLSCertificate) :
    List (TLSDomain × String) → ActLookup → List TLSActivationData →
    List TLSActivationData × ActLookup
  | [], m, missing => (missing, m)
  | (d, c) :: rest, m, missing =>
    if lookupHas m (d.id, c) then
      diffLoop cert rest (lookupErase m (d.id, c)) missing
    else
      diffLoop cert rest m (missing ++ [⟨cert, ⟨c⟩, d⟩])

/-- The observation computed by `getFastlyTLSActivationState` once the
    matched certificate is in hand: the missing activation triples and,
    from the entries remaining in the lookup after the walk, the extra
    activation IDs. -/
def activationStateForCert (cert : CustomTLSCertificate) (configIDs : List String)
    (actInv : List TLSActivation) : List TLSActivationData × List String :=
  let m := getFastlyDomainAndConfigurationToActivationMap actInv
  let res := diffLoop cert (desiredPairs cert.domains configIDs) m []
  (res.1, res.2.map (fun e => e.2.id))

/-- getFastlyTLSActivationState (fastly.go). The function dereferences the
    result of `getFastlyCertificateMatchingSubject` without a nil check
    (`cert.ID` when listing activations, `fastlyCertificate.Domains` when
    walking the desired matrix); `none` models that nil-pointer panic. -/
def getFastlyTLSActivationState (subjectName : String)
    (certInv : List CustomTLSCertificate) (configIDs : List String)
    (actInvFor : CustomTLSCertificate → List TLSActivation) :
    Option (List TLSActivationData × List String) :=
  match getFastlyCertificateMatchingSubject subjectName certInv with
  | none => none
  | some cert => some (activationStateForCert cert configIDs (actInvFor cert))

/-! ### Certificate staleness and status (fastly.go)

`isFastlyCertificateStale` decodes the local certificate blob with
`pem.Decode`, parses it with `x509.ParseCertificate`, and compares the
decimal serial number string with the matched remote certificate's stored
serial number. The two standard-library calls are modelled as an explicit
decoder whose `none` results are the library error returns. -/

/-- Abstract model of the Go standard-library certificate decoding:
    `pemDecodeBlock` is pem.Decode restricted to the block bytes (none when
    no PEM block is found), `parseSerialNumber` is x509.ParseCertificate
    restricted to `cert.SerialNumber.String()`, the only field consumed
    (none when parsing fails). -/
structure CertDecoder where
  pemDecodeBlock : List Nat → Option (List Nat)
  parseSerialNumber : List Nat → Option String

/-- isFastlyCertificateStale: decode, parse, then compare serial numbers;
    differing serial numbers mean the remote certificate is stale. -/
def isFastlyCertificateStale (dec : CertDecoder) (certPEM : List Nat)
    (fastlyCertificate : CustomTLSCertificate) : Except String Bool :=
  match dec.pemDecodeBlock certPEM with
  | none => .error "failed to decode PEM block"
  | some blockBytes =>
    match dec.parseSerialNumber blockBytes with
    | none => .error "failed to parse certificate"
    | some serialNumber => .ok (decide (fastlyCertificate.serialNumber ≠ serialNumber))

/-- getFastlyCertificateStatus: no name match is Missing; otherwise the
    staleness check decides Stale against Synced, and its errors are
    propagated. -/
def getFastlyCertificateStatus (dec : CertDecoder) (subjectName : String)
    (certInv : List CustomTLSCertificate) (certPEM : List Nat) :
    Except String CertificateStatus :=
  match getFastlyCertificateMatchingSubject subjectName certInv with
  | none => .ok CertificateStatusMissing
  | some fastlyCertificate =>
    match isFastlyCertificateStale dec certPEM fastlyCertificate with
    | .error e => .error ("failed to check if certificate is stale: " ++ e)
    | .ok true => .ok CertificateStatusStale
    | .ok false => .ok CertificateStatusSynced

/-! ### Key material helper (helper.go)

`getPublicKeySHA1FromPEM` decodes one PEM block from the private-key bytes,
parses it as a PKCS#1 RSA private key, marshals the embedded public key to
DER, re-encodes that as a PEM "PUBLIC KEY" block, and hex-encodes the SHA-1
of those PEM bytes. The PEM scanner is modelled at line granularity: Go's
pem.Decode skips any text before the first BEGIN marker and collects the
block's data lines up to the END marker; whitespace and comment padding
around the block are `textLine`s. RSA parsing, DER marshalling, the PEM
re-encoding of the public key and SHA-1 itself are Go standard-library
primitives, modelled abstractly; `sha1Len` records that SHA-1 digests are
20 bytes. -/

inductive PEMLine
  | beginMarker
  | endMarker
  | dataLine (chunk : String)
  | textLine (junk : String)
  deriving DecidableEq, Repr

/-- Collect the data lines of a PEM block up to its END marker; any other
    line (or running out of input) fails the block. -/
def collectBlock : List PEMLine → List String → Option (List String)
  | [], _ => none
  | PEMLine.endMarker :: _, acc => some acc
  | PEMLine.dataLine s :: rest, acc => collectBlock rest (acc ++ [s])
  | PEMLine.textLine _ :: _, _ => none
  | PEMLine.beginMarker :: _, _ => none

/-- Line-level model of Go pem.Decode: skip anything before the first BEGIN
    marker, then collect the block. -/
def pemDecode : List PEMLine → Option (List String)
  | [] => none
  | PEMLine.beginMarker :: rest => collectBlock rest []
  | PEMLine.endMarker :: rest => pemDecode rest
  | PEMLine.dataLine _ :: rest => pemDecode rest
  | PEMLine.textLine _ :: rest => pemDecode rest

/-- An RSA public key (modulus and public exponent). -/
structure RSAPublicKey where
  n : Nat
  e : Nat
  deriving DecidableEq, Repr

/-- An RSA private key as consumed here: only its embedded public key
    component is used. -/
structure RSAPrivateKey where
  publicKey : RSAPublicKey
  deriving DecidableEq, Repr

/-- The Go standard-library primitives used by getPublicKeySHA1FromPEM.
    `marshalPKIXPublicKey` is total: for the public key of a successfully
    parsed RSA private key the Go call never errors. -/
structure CryptoPrims where
  parsePKCS1PrivateKey : List String → Option RSAPrivateKey
  marshalPKIXPublicKey : RSAPublicKey → List Nat
  pemEncodePublicKey : List Nat → List Nat
  sha1Bytes : List Nat → List Nat
  sha1Len : ∀ bs, (sha1Bytes bs).length = 20

/-- The lowercase hex digit for a value below 16, as hex.EncodeToString
    emits them. -/
def hexDigit (n : Nat) : Char := Nat.digitChar n

/-- hex.EncodeToString: two hex digits per byte. -/
def hexEncodeBytes (bs : List Nat) : List Char :=
  bs.foldr (fun b acc => hexDigit (b / 16) :: hexDigit (b % 16) :: acc) []

/-- getPublicKeySHA1FromPEM (helper.go). -/
def getPublicKeySHA1FromPEM (prims : CryptoPrims) (keyPEM : List PEMLine) :
    Except String String :=
  match pemDecode keyPEM with
  | none => .error "failed to parse PEM block"
  | some blockBytes =>
    match prims.parsePKCS1PrivateKey blockBytes with
    | none => .error "failed to parse RSA private key"
    | some priv =>
      let pubKeyBytes := prims.marshalPKIXPublicKey priv.publicKey
      let pubKeyPEM := prims.pemEncodePublicKey pubKeyBytes
      .ok (String.mk (hexEncodeBytes (prims.sha1Bytes pubKeyPEM)))

/-- getFastlyPrivateKeyExists (fastly.go): page through all remote private
    keys, compute the local fingerprint, return whether any remote
    PublicKeySHA1 equals it. -/
def getFastlyPrivateKeyExists (prims : CryptoPrims) (keyPEM : List PEMLine)
    (keyInv : List PrivateKey) : Except String Bool :=
  let allPrivateKeys := fetchAllPages keyInv
  match getPublicKeySHA1FromPEM prims keyPEM with
  | .error e => .error ("failed to get public key SHA1: " ++ e)
  | .ok publicKeySHA1 =>
    .ok (allPrivateKeys.any (fun key => decide (key.publicKeySHA1 = publicKeySHA1)))

/-! ### Readiness gate and observation pass (helper.go, logic.go)

The local certificate and its secret are fetched through the Kubernetes
client, modelled as lookup functions whose `none` results are the client's
error returns. -/

/-- A cert-manager certificate as consumed here: its secret reference and
    its status conditions. -/
structure CMCondition where
  type : String
  status : String
  deriving DecidableEq, Repr

structure Certificate where
  name : String
  secretName : String
  conditions : List CMCondition
  deriving DecidableEq, Repr

/-- A Kubernetes secret; its data is consumed elsewhere, only its identity
    matters for the gate. -/
structure Secret where
  name : String
  deriving DecidableEq, Repr

/-- getCertificateAndTLSSecretFromSubject (helper.go): fetch the referenced
    certificate, then the secret the certificate references. -/
def getCertificateAndTLSSecretFromSubject (getCert : Option Certificate)
    (getSecret : String → Option Secret) : Except String (Certificate × Secret) :=
  match getCert with
  | none => .error "failed to get certificate"
  | some certificate =>
    match getSecret certificate.secretName with
    | none => .error "failed to get secret"
    | some secret => .ok (certificate, secret)

/-- Modelled from the spec: `isSubjectReadyForReconciliation` itself is not
    among the source files (only its caller in `ObserveResources` and its
    test replica `isSubjectReadyForReconciliationWithMock` are). Per the
    spec's readiness gate: not ready when the certificate/secret fetch
    fails or when the certificate's Ready condition is not explicitly
    True. -/
def isSubjectReadyForReconciliation (getCert : Option Certificate)
    (getSecret : String → Option Secret) : Bool :=
  match getCertificateAndTLSSecretFromSubject getCert getSecret with
  | .error _ => false
  | .ok (certificate, _) =>
    certificate.conditions.any
      (fun c => decide (c.type = "Ready") && decide (c.status = "True"))

/-- The results the four observation steps of `ObserveResources` would
    produce if run, each a remote query that can fail. -/
structure ObservationSteps where
  privateKeyExists : Except String Bool
  certificateStatus : Except String CertificateStatus
  activationState : Except String (List TLSActivationData × List String)
  unusedKeyIDs : Except String (List String)

/-- The observable outcome of one `ObserveResources` call: the readiness
    flag, the observed state as left behind, the requested requeue delay in
    seconds, the observation steps actually run (each one or more remote
    provider calls), and the propagated observation error if any. -/
structure ObserveOutcome where
  subjectReady : Bool
  observed : ObservedState
  requeueAfterSeconds : Option Nat
  stepsRun : List String
  observationError : Option String
  deriving DecidableEq, Repr

/-- Logic.ObserveResources (logic.go): reset the observed state, run the
    readiness gate (not ready: fixed 30-second requeue, no observation step
    and hence no remote call), otherwise run the four observation steps in
    order, stopping at the first error. -/
def observeResources (getCert : Option Certificate)
    (getSecret : String → Option Secret) (steps : ObservationSteps) : ObserveOutcome :=
  if !isSubjectReadyForReconciliation getCert getSecret then
    { subjectReady := false, observed := {}, requeueAfterSeconds := some 30,
      stepsRun := [], observationError := none }
  else
    match steps.privateKeyExists with
    | .error e =>
      { subjectReady := true, observed := {}, requeueAfterSeconds := none,
        stepsRun := ["privateKey"], observationError := some e }
    | .ok fastlyPrivateKeyExists =>
      match steps.certificateStatus with
      | .error e =>
        { subjectReady := true,
          observed := { privateKeyUploaded := fastlyPrivateKeyExists },
          requeueAfterSeconds := none,
          stepsRun := ["privateKey", "certificate"], observationError := some e }
      | .ok fastlyCertificateStatus =>
        match steps.activationState with
        | .error e =>
          { subjectReady := true,
            observed := { privateKeyUploaded := fastlyPrivateKeyExists,
                          certificateStatus := fastlyCertificateStatus },
            requeueAfterSeconds := none,
            stepsRun := ["privateKey", "certificate", "activations"],
            observationError := some e }
        | .ok activationState =>
          match steps.unusedKeyIDs with
          | .error e =>
            { subjectReady := true,
              observed := { privateKeyUploaded := fastlyPrivateKeyExists,
                            certificateStatus := fastlyCertificateStatus,
                            missingTLSActivationData := activationState.1,
                            extraTLSActivationIDs := activationState.2 },
              requeueAfterSeconds := none,
              stepsRun := ["privateKey", "certificate", "activations", "unusedKeys"],
              observationError := some e }
          | .ok unusedPrivateKeyIDs =>
            { subjectReady := true,
              observed := { privateKeyUploaded := fastlyPrivateKeyExists,
                            certificateStatus := fastlyCertificateStatus,
                            missingTLSActivationData := activationState.1,
                            extraTLSActivationIDs := activationState.2,
                            unusedPrivateKeyIDs := unusedPrivateKeyIDs },
              requeueAfterSeconds := none,
              stepsRun := ["privateKey", "certificate", "activations", "unusedKeys"],
              observationError := none }

/-! ### Batch mutations (fastly.go)

`createMissingFastlyTLSActivations` and `deleteExtraFastlyTLSActivations`
attempt every item of their list, collect the individual failures, and
return them joined as one combined error (nil when there were none).
`clearFastlyUnusedPrivateKeys` attempts every deletion and only logs
failures; it has no error result at all. Each model returns the attempted
items (the visible call trace) alongside the Go result. -/

/-- createMissingFastlyTLSActivations: `create` models the
    CreateTLSActivation call. Returns the attempted items and the combined
    error (`none` for the nil error). -/
def createMissingFastlyTLSActivations (missing : List TLSActivationData)
    (create : TLSActivationData → Option String) :
    List TLSActivationData × Option (List String) :=
  let res := missing.foldl
    (fun (acc : List TLSActivationData × List String) activationData =>
      match create activationData with
      | none => (acc.1 ++ [activationData], acc.2)
      | some e =>
        (acc.1 ++ [activationData],
         acc.2 ++ ["failed to create TLS activation for config "
           ++ activationData.configuration.id ++ ": " ++ e]))
    ([], [])
  (res.1, if res.2.length > 0 then some res.2 else none)

/-- deleteExtraFastlyTLSActivations: `delete` models the
    DeleteTLSActivation call. -/
def deleteExtraFastlyTLSActivations (extraIDs : List String)
    (delete : String → Option String) : List String × Option (List String) :=
  let res := extraIDs.foldl
    (fun (acc : List String × List String) activationID =>
      match delete activationID with
      | none => (acc.1 ++ [activationID], acc.2)
      | some e =>
        (acc.1 ++ [activationID],
         acc.2 ++ ["failed to delete TLS activation " ++ activationID ++ ": " ++ e]))
    ([], [])
  (res.1, if res.2.length > 0 then some res.2 else none)

/-- clearFastlyUnusedPrivateKeys: attempts every deletion; a failure is only
    logged. The Go function returns nothing, so the model's second component
    is the log of swallowed failures, not an error result. -/
def clearFastlyUnusedPrivateKeys (unusedIDs : List String)
    (delete : String → Option String) : List String × List String :=
  unusedIDs.foldl
    (fun (acc : List String × List String) privateKeyID =>
      match delete privateKeyID with
      | none => (acc.1 ++ [privateKeyID], acc.2)
      | some e => (acc.1 ++ [privateKeyID], acc.2 ++ [e]))
    ([], [])

/-! ### Claim theorems -/

/-- C1: for every Observation of a ready pass, ApplyUnmanaged performs at
    most one corrective action, chosen by fixed priority with
    short-circuit — private key not uploaded (regardless of the other
    fields), then certificate Missing, then Stale, then missing
    activations, then extra activations, then unused keys — requesting an
    immediate (zero-delay) requeue after any of the six actions and
    performing no action and no immediate requeue when none of the
    conditions holds. -/
theorem applyUnmanaged_priority (o : ObservedState) :
    (o.privateKeyUploaded = false →
      applyUnmanaged true o noFail = .ok (some .createPrivateKey) true) ∧
    (o.privateKeyUploaded = true → o.certificateStatus = CertificateStatusMissing →
      applyUnmanaged true o noFail = .ok (some .createCertificate) true) ∧
    (o.privateKeyUploaded = true → o.certificateStatus = CertificateStatusStale →
      applyUnmanaged true o noFail = .ok (some .updateCertificate) true) ∧
    (o.privateKeyUploaded = true →
      o.certificateStatus ≠ CertificateStatusMissing →
      o.certificateStatus ≠ CertificateStatusStale →
      o.missingTLSActivationData ≠ [] →
      applyUnmanaged true o noFail = .ok (some .createMissingActivations) true) ∧
    (o.privateKeyUploaded = true →
      o.certificateStatus ≠ CertificateStatusMissing →
      o.certificateStatus ≠ CertificateStatusStale →
      o.missingTLSActivationData = [] →
      o.extraTLSActivationIDs ≠ [] →
      applyUnmanaged true o noFail = .ok (some .deleteExtraActivations) true) ∧
    (o.privateKeyUploaded = true →
      o.certificateStatus ≠ CertificateStatusMissing →
      o.certificateStatus ≠ CertificateStatusStale →
      o.missingTLSActivationData = [] →
      o.extraTLSActivationIDs = [] →
      o.unusedPrivateKeyIDs ≠ [] →
      applyUnmanaged true o noFail = .ok (some .clearUnusedPrivateKeys) true) ∧
    (o.privateKeyUploaded = true →
      o.certificateStatus ≠ CertificateStatusMissing →
      o.certificateStatus ≠ CertificateStatusStale →
      o.missingTLSActivationData = [] →
      o.extraTLSActivationIDs = [] →
      o.unusedPrivateKeyIDs = [] →
      applyUnmanaged true o noFail = .ok none false) := by
  refine ⟨?_, ?_, ?_, ?_, ?_, ?_, ?_⟩
  · intro hpk
    simp [applyUnmanaged, noFail, hpk]
  · intro hpk hcs
    simp [applyUnmanaged, noFail, hpk, hcs]
  · intro hpk hcs
    simp [applyUnmanaged, noFail, hpk, hcs, CertificateStatusStale,
      CertificateStatusMissing]
  · intro hpk h1 h2 h3
    simp [applyUnmanaged, noFail, hpk, h1, h2, List.length_pos, h3]
  · intro hpk h1 h2 h3 h4
    simp [applyUnmanaged, noFail, hpk, h1, h2, h3, List.length_pos, h4]
  · intro hpk h1 h2 h3 h4 h5
    simp [applyUnmanaged, noFail, hpk, h1, h2, h3, h4, List.length_pos, h5]
  · intro hpk h1 h2 h3 h4 h5
    simp [applyUnmanaged, noFail, hpk, h1, h2, h3, h4, h5]

theorem applyUnmanaged_priority_witness :
    applyUnmanaged true {} noFail = .ok (some .createPrivateKey) true :=
  (applyUnmanaged_priority {}).1 rfl

/-- C7: status derivation is a pure function of the Observation:
    CertificateReady is True with reason CertificateSynced exactly when the
    status is Synced, False with distinct reasons for Stale and Missing,
    Unknown for any other value; the overall Ready flag is true exactly
    when the private key is uploaded, the certificate is Synced, and the
    missing/extra/unused lists are all empty; and the Ready flag and the
    Ready condition always agree. -/
theorem fillStatus_derivation (o : ObservedState) :
    (((observeCertificateReadyCondition o).status = ConditionTrue ∧
        (observeCertificateReadyCondition o).reason = "CertificateSynced")
      ↔ o.certificateStatus = CertificateStatusSynced) ∧
    (o.certificateStatus = CertificateStatusStale →
      (observeCertificateReadyCondition o).status = ConditionFalse ∧
      (observeCertificateReadyCondition o).reason = "CertificateStale") ∧
    (o.certificateStatus = CertificateStatusMissing →
      (observeCertificateReadyCondition o).status = ConditionFalse ∧
      (observeCertificateReadyCondition o).reason = "CertificateMissing") ∧
    (o.certificateStatus ≠ CertificateStatusSynced →
      o.certificateStatus ≠ CertificateStatusStale →
      o.certificateStatus ≠ CertificateStatusMissing →
      (observeCertificateReadyCondition o).status = ConditionUnknown) ∧
    (fillStatusReady o = true ↔
      (o.privateKeyUploaded = true ∧
       o.certificateStatus = CertificateStatusSynced ∧
       o.missingTLSActivationData = [] ∧
       o.extraTLSActivationIDs = [] ∧
       o.unusedPrivateKeyIDs = [])) ∧
    (fillStatusReady o = true ↔ (observeReadyCondition o).status = ConditionTrue) := by
  refine ⟨?_, ?_, ?_, ?_, ?_, ?_⟩
  · by_cases hc : o.certificateStatus = CertificateStatusSynced
    · simp [observeCertificateReadyCondition, hc]
    · by_cases hs : o.certificateStatus = CertificateStatusStale
      · simp [observeCertificateReadyCondition, hc, hs, ConditionTrue, ConditionFalse,
          CertificateStatusSynced, CertificateStatusStale]
      · by_cases hm : o.certificateStatus = CertificateStatusMissing
        · simp [observeCertificateReadyCondition, hc, hs, hm, ConditionTrue,
            ConditionFalse, CertificateStatusSynced, CertificateStatusStale,
            CertificateStatusMissing]
        · simp [observeCertificateReadyCondition, hc, hs, hm, ConditionTrue,
            ConditionUnknown]
  · intro hs
    have hc : o.certificateStatus ≠ CertificateStatusSynced := by rw [hs]; decide
    simp [observeCertificateReadyCondition, hc, hs, CertificateStatusSynced,
      CertificateStatusStale, ConditionFalse, ConditionTrue]
  · intro hm
    have hc : o.certificateStatus ≠ CertificateStatusSynced := by rw [hm]; decide
    have hs : o.certificateStatus ≠ CertificateStatusStale := by rw [hm]; decide
    simp [observeCertificateReadyCondition, hc, hs, hm, CertificateStatusSynced,
      CertificateStatusStale, CertificateStatusMissing, ConditionFalse]
  · intro hc hs hm
    simp [observeCertificateReadyCondition, hc, hs, hm]
  · simp [fillStatusReady, List.length_eq_zero, and_assoc]
  · have hrw : observeReadyCondition o =
        (if fillStatusReady o then
          { type := "Ready", status := ConditionTrue,
            reason := "FastlySyncComplete",
            message := "FastlyCertificateSync is ready and all components are synchronized" }
        else
          { type := "Ready", status := ConditionFalse,
            reason := "FastlySyncIncomplete",
            message := "FastlyCertificateSync is not ready - synchronization in progress" }) :=
      rfl
    rw [hrw]
    cases hb : fillStatusReady o
    · simp [ConditionTrue, ConditionFalse]
    · simp

theorem fillStatus_derivation_witness :
    (observeCertificateReadyCondition { certificateStatus := "Stale" }).status =
        ConditionFalse ∧
      (observeCertificateReadyCondition { certificateStatus := "Stale" }).reason =
        "CertificateStale" :=
  (fillStatus_derivation { certificateStatus := "Stale" }).2.1 rfl

theorem findMatchingCert_none (subjectName : String) :
    ∀ certs : List CustomTLSCertificate, (∀ c ∈ certs, c.name ≠ subjectName) →
      findMatchingCert subjectName certs = none := by
  intro certs
  induction certs with
  | nil => intro _; rfl
  | cons c rest ih =>
    intro h
    rw [findMatchingCert, if_neg (h c (by simp))]
    exact ih (fun x hx => h x (by simp [hx]))

theorem findMatchingCert_first (subjectName : String) :
    ∀ (pre : List CustomTLSCertificate) (cert : CustomTLSCertificate)
      (post : List CustomTLSCertificate),
      cert.name = subjectName → (∀ c ∈ pre, c.name ≠ subjectName) →
      findMatchingCert subjectName (pre ++ cert :: post) = some cert := by
  intro pre
  induction pre with
  | nil =>
    intro cert post hname _
    simp only [List.nil_append, findMatchingCert]
    rw [if_pos hname]
  | cons c rest ih =>
    intro cert post hname hpre
    simp only [List.cons_append, findMatchingCert]
    rw [if_neg (hpre c (by simp))]
    exact ih cert post hname (fun x hx => hpre x (by simp [hx]))

/-- C3: the remote certificate is matched by name equality with the first
    match winning; no match yields Missing; otherwise the decoded local
    leaf certificate's decimal serial number string is compared with the
    matched remote certificate's stored serial number, Stale on mismatch
    and Synced on match. -/
theorem certificateStatus_observation (dec : CertDecoder) (subjectName : String)
    (certInv : List CustomTLSCertificate) (certPEM : List Nat) :
    (∀ (pre : List CustomTLSCertificate) (cert : CustomTLSCertificate)
        (post : List CustomTLSCertificate),
      certInv = pre ++ cert :: post → cert.name = subjectName →
      (∀ c ∈ pre, c.name ≠ subjectName) →
      getFastlyCertificateMatchingSubject subjectName certInv = some cert) ∧
    ((∀ c ∈ certInv, c.name ≠ subjectName) →
      getFastlyCertificateStatus dec subjectName certInv certPEM =
        .ok CertificateStatusMissing) ∧
    (∀ cert, getFastlyCertificateMatchingSubject subjectName certInv = some cert →
      ∀ blockBytes serialNumber,
        dec.pemDecodeBlock certPEM = some blockBytes →
        dec.parseSerialNumber blockBytes = some serialNumber →
        getFastlyCertificateStatus dec subjectName certInv certPEM =
          .ok (if cert.serialNumber = serialNumber then CertificateStatusSynced
            else CertificateStatusStale)) := by
  refine ⟨?_, ?_, ?_⟩
  · intro pre cert post hsplit hname hpre
    rw [getFastlyCertificateMatchingSubject, fetchAllPages_eq, hsplit]
    exact findMatchingCert_first subjectName pre cert post hname hpre
  · intro hnone
    rw [getFastlyCertificateStatus, getFastlyCertificateMatchingSubject,
      fetchAllPages_eq, findMatchingCert_none subjectName certInv hnone]
  · intro cert hfind blockBytes serialNumber hdec hparse
    simp only [getFastlyCertificateStatus, isFastlyCertificateStale, hfind, hdec,
      hparse]
    by_cases hser : cert.serialNumber = serialNumber
    · simp [hser]
    · simp [hser]

/-- A concrete remote certificate for the C3 witness. -/
def certW : CustomTLSCertificate :=
  { id := "cid", name := "crt", serialNumber := "111", domains := [] }

/-- A concrete decoder for the C3 witness: the blob decodes and parses to
    serial number 111. -/
def certDecoderW : CertDecoder where
  pemDecodeBlock := fun bs => some bs
  parseSerialNumber := fun _ => some "111"

theorem certificateStatus_observation_witness :
    getFastlyCertificateStatus certDecoderW "crt" [certW] [0] =
      .ok CertificateStatusSynced := by
  have h := (certificateStatus_observation certDecoderW "crt" [certW] [0]).2.2 certW
    (by decide) [0] "111" rfl rfl
  simpa [certW] using h

/-- A decoder on which PEM decoding always fails. -/
def failingCertDecoder : CertDecoder where
  pemDecodeBlock := fun _ => none
  parseSerialNumber := fun _ => none

/-- C9 counterexample: with a certificate blob that fails PEM decoding and
    no matching remote certificate, the status observation still classifies
    the certificate as Missing (the blob is never decoded on that path), so
    Missing is not "only ever returned when decoding and parsing
    succeed". -/
theorem certificateStatus_parse_failure_counterexample :
    failingCertDecoder.pemDecodeBlock [0] = none ∧
    getFastlyCertificateStatus failingCertDecoder "crt" [] [0] =
      .ok CertificateStatusMissing :=
  ⟨rfl, rfl⟩

/-- C9 as amended: when a matching remote certificate exists (so the
    staleness check runs), a blob failing PEM decoding or X.509 parsing
    makes the staleness check — and the whole status observation — return
    an error, never a status; Stale and Synced are only ever returned when
    decoding and parsing succeed. (Missing can be returned without
    examining the blob, when no remote name matches.) -/
theorem certificateStatus_parse_failure (dec : CertDecoder) (subjectName : String)
    (certInv : List CustomTLSCertificate) (certPEM : List Nat) :
    (∀ cert, dec.pemDecodeBlock certPEM = none →
      isFastlyCertificateStale dec certPEM cert =
        .error "failed to decode PEM block") ∧
    (∀ cert blockBytes, dec.pemDecodeBlock certPEM = some blockBytes →
      dec.parseSerialNumber blockBytes = none →
      isFastlyCertificateStale dec certPEM cert =
        .error "failed to parse certificate") ∧
    (∀ cert, getFastlyCertificateMatchingSubject subjectName certInv = some cert →
      (dec.pemDecodeBlock certPEM = none ∨
        ∃ bs, dec.pemDecodeBlock certPEM = some bs ∧
          dec.parseSerialNumber bs = none) →
      ∃ e, getFastlyCertificateStatus dec subjectName certInv certPEM = .error e) ∧
    (∀ s, getFastlyCertificateStatus dec subjectName certInv certPEM = .ok s →
      s = CertificateStatusStale ∨ s = CertificateStatusSynced →
      ∃ bs serial, dec.pemDecodeBlock certPEM = some bs ∧
        dec.parseSerialNumber bs = some serial) := by
  refine ⟨?_, ?_, ?_, ?_⟩
  · intro cert hdec
    simp only [isFastlyCertificateStale, hdec]
  · intro cert blockBytes hdec hparse
    simp only [isFastlyCertificateStale, hdec, hparse]
  · intro cert hfind hfail
    rcases hfail with hdec | ⟨bs, hdec, hparse⟩
    · simp only [getFastlyCertificateStatus, isFastlyCertificateStale, hfind, hdec]
      exact ⟨_, rfl⟩
    · simp only [getFastlyCertificateStatus, isFastlyCertificateStale, hfind, hdec,
        hparse]
      exact ⟨_, rfl⟩
  · intro s hok hss
    cases hfind : getFastlyCertificateMatchingSubject subjectName certInv with
    | none =>
      simp only [getFastlyCertificateStatus, hfind, Except.ok.injEq] at hok
      subst hok
      rcases hss with h | h <;>
        simp [CertificateStatusMissing, CertificateStatusStale,
          CertificateStatusSynced] at h
    | some cert =>
      cases hdec : dec.pemDecodeBlock certPEM with
      | none =>
        simp only [getFastlyCertificateStatus, isFastlyCertificateStale, hfind,
          hdec] at hok
        simp at hok
      | some bs =>
        cases hparse : dec.parseSerialNumber bs with
        | none =>
          simp only [getFastlyCertificateStatus, isFastlyCertificateStale, hfind,
            hdec, hparse] at hok
          simp at hok
        | some serial => exact ⟨bs, serial, rfl, hparse⟩

theorem certificateStatus_parse_failure_witness :
    isFastlyCertificateStale failingCertDecoder [0] certW =
      .error "failed to decode PEM block" :=
  (certificateStatus_parse_failure failingCertDecoder "crt" [certW] [0]).1 certW rfl

/-- C4: when no remote certificate's name matches the local certificate's
    name (a CertificateStatus of Missing), the TLS-activation observation
    dereferences the nil certificate pointer (modelled by the `none`
    result) instead of returning empty missing/extra sets or an error; it
    is total exactly when a matching remote certificate exists. -/
theorem activationState_nil_certificate (subjectName : String)
    (certInv : List CustomTLSCertificate) (configIDs : List String)
    (actInvFor : CustomTLSCertificate → List TLSActivation) :
    ((∀ c ∈ certInv, c.name ≠ subjectName) →
      getFastlyTLSActivationState subjectName certInv configIDs actInvFor = none) ∧
    (getFastlyTLSActivationState subjectName certInv configIDs actInvFor = none ↔
      getFastlyCertificateMatchingSubject subjectName certInv = none) ∧
    (∀ cert, getFastlyCertificateMatchingSubject subjectName certInv = some cert →
      getFastlyTLSActivationState subjectName certInv configIDs actInvFor =
        some (activationStateForCert cert configIDs (actInvFor cert))) := by
  refine ⟨?_, ?_, ?_⟩
  · intro hnone
    rw [getFastlyTLSActivationState, getFastlyCertificateMatchingSubject,
      fetchAllPages_eq, findMatchingCert_none subjectName certInv hnone]
  · cases hfind : getFastlyCertificateMatchingSubject subjectName certInv with
    | none => simp [getFastlyTLSActivationState, hfind]
    | some cert => simp [getFastlyTLSActivationState, hfind]
  · intro cert hfind
    simp [getFastlyTLSActivationState, hfind]

theorem activationState_nil_certificate_witness :
    getFastlyTLSActivationState "crt" [] ["cfg"] (fun _ => []) = none :=
  (activationState_nil_certificate "crt" [] ["cfg"] (fun _ => [])).1
    (by intro c hc; simp at hc)

/-- 21 unused private keys: one more than the page size. -/
def unusedKeys21 : List PrivateKey :=
  (List.range 21).map (fun i => { id := toString i, publicKeySHA1 := "" })

/-- C5 counterexample: the unused-private-key listing does not follow the
    pagination convention — it issues a single ListPrivateKeys call with no
    pagination loop, so with 21 unused keys its result is a truncated
    (20-element) strict prefix of the remote inventory. -/
theorem unusedKeys_pagination_counterexample :
    getFastlyUnusedPrivateKeyIDs unusedKeys21 ≠
      unusedKeys21.map (fun k => k.id) ∧
    getFastlyUnusedPrivateKeyIDs unusedKeys21 =
      (unusedKeys21.map (fun k => k.id)).take defaultFastlyPageSize ∧
    (unusedKeys21.map (fun k => k.id)).length = 21 := by
  refine ⟨?_, by decide, by decide⟩
  decide

/-- C5 as amended: the three listing loops (private keys in the existence
    check, certificates, activations) follow the pagination convention —
    fixed page size 20, stop exactly on a short page — and therefore always
    recover the full remote inventory; the unused-private-key listing
    instead issues one unpaginated request and returns only the provider's
    first default page of the unused inventory. -/
theorem pagination_convention (keyInv : List PrivateKey)
    (certInv : List CustomTLSCertificate) (actInv : List TLSActivation)
    (unusedInv : List PrivateKey) :
    fetchAllPages keyInv = keyInv ∧
    fetchAllPages certInv = certInv ∧
    fetchAllPages actInv = actInv ∧
    getFastlyUnusedPrivateKeyIDs unusedInv =
      (unusedInv.map (fun k => k.id)).take defaultFastlyPageSize := by
  refine ⟨fetchAllPages_eq keyInv, fetchAllPages_eq certInv, fetchAllPages_eq actInv, ?_⟩
  rw [getFastlyUnusedPrivateKeyIDs, List.map_take]

theorem createMissingFold (create : TLSActivationData → Option String) :
    ∀ (missing : List TLSActivationData) (acc : List TLSActivationData × List String),
      missing.foldl
        (fun (acc : List TLSActivationData × List String) activationData =>
          match create activationData with
          | none => (acc.1 ++ [activationData], acc.2)
          | some e =>
            (acc.1 ++ [activationData],
             acc.2 ++ ["failed to create TLS activation for config "
               ++ activationData.configuration.id ++ ": " ++ e]))
        acc =
      (acc.1 ++ missing,
       acc.2 ++ missing.filterMap (fun a =>
         (create a).map (fun e => "failed to create TLS activation for config "
           ++ a.configuration.id ++ ": " ++ e))) := by
  intro missing
  induction missing with
  | nil => intro acc; simp
  | cons a rest ih =>
    intro acc
    simp only [List.foldl_cons, List.filterMap_cons]
    cases hc : create a with
    | none => rw [ih]; simp [hc]
    | some e => rw [ih]; simp [hc]

theorem deleteExtraFold (delete : String → Option String) :
    ∀ (extraIDs : List String) (acc : List String × List String),
      extraIDs.foldl
        (fun (acc : List String × List String) activationID =>
          match delete activationID with
          | none => (acc.1 ++ [activationID], acc.2)
          | some e =>
            (acc.1 ++ [activationID],
             acc.2 ++ ["failed to delete TLS activation " ++ activationID ++ ": " ++ e]))
        acc =
      (acc.1 ++ extraIDs,
       acc.2 ++ extraIDs.filterMap (fun i =>
         (delete i).map (fun e => "failed to delete TLS activation " ++ i ++ ": " ++ e))) := by
  intro extraIDs
  induction extraIDs with
  | nil => intro acc; simp
  | cons i rest ih =>
    intro acc
    simp only [List.foldl_cons, List.filterMap_cons]
    cases hc : delete i with
    | none => rw [ih]; simp [hc]
    | some e => rw [ih]; simp [hc]

theorem clearKeysFold (delete : String → Option String) :
    ∀ (unusedIDs : List String) (acc : List String × List String),
      unusedIDs.foldl
        (fun (acc : List String × List String) privateKeyID =>
          match delete privateKeyID with
          | none => (acc.1 ++ [privateKeyID], acc.2)
          | some e => (acc.1 ++ [privateKeyID], acc.2 ++ [e]))
        acc =
      (acc.1 ++ unusedIDs, acc.2 ++ unusedIDs.filterMap delete) := by
  intro unusedIDs
  induction unusedIDs with
  | nil => intro acc; simp
  | cons i rest ih =>
    intro acc
    simp only [List.foldl_cons, List.filterMap_cons]
    cases hc : delete i with
    | none => rw [ih]; simp [hc]
    | some e => rw [ih]; simp [hc]

/-- C8: createMissing and deleteExtra attempt every item regardless of
    earlier failures, return nil exactly when every item succeeds, and
    otherwise one combined error joining every individual failure;
    unused-private-key cleanup attempts every deletion but has no error
    result at all — in the action step the cleanup branch succeeds (with
    its immediate requeue) no matter how the individual deletions fare. -/
theorem batch_mutation_error_collection
    (missing : List TLSActivationData) (create : TLSActivationData → Option String)
    (extraIDs : List String) (delete : String → Option String)
    (unusedIDs : List String) (deleteKey : String → Option String)
    (o : ObservedState) (fails : Action → Option String) :
    ((createMissingFastlyTLSActivations missing create).1 = missing) ∧
    ((createMissingFastlyTLSActivations missing create).2 = none ↔
      ∀ a ∈ missing, create a = none) ∧
    (∀ errs, (createMissingFastlyTLSActivations missing create).2 = some errs →
      errs = missing.filterMap (fun a =>
        (create a).map (fun e => "failed to create TLS activation for config "
          ++ a.configuration.id ++ ": " ++ e))) ∧
    ((deleteExtraFastlyTLSActivations extraIDs delete).1 = extraIDs) ∧
    ((deleteExtraFastlyTLSActivations extraIDs delete).2 = none ↔
      ∀ i ∈ extraIDs, delete i = none) ∧
    (∀ errs, (deleteExtraFastlyTLSActivations extraIDs delete).2 = some errs →
      errs = extraIDs.filterMap (fun i =>
        (delete i).map (fun e => "failed to delete TLS activation " ++ i ++ ": " ++ e))) ∧
    ((clearFastlyUnusedPrivateKeys unusedIDs deleteKey).1 = unusedIDs) ∧
    ((clearFastlyUnusedPrivateKeys unusedIDs deleteKey).2 =
      unusedIDs.filterMap deleteKey) ∧
    (o.privateKeyUploaded = true →
      o.certificateStatus ≠ CertificateStatusMissing →
      o.certificateStatus ≠ CertificateStatusStale →
      o.missingTLSActivationData = [] →
      o.extraTLSActivationIDs = [] →
      o.unusedPrivateKeyIDs ≠ [] →
      applyUnmanaged true o fails = .ok (some .clearUnusedPrivateKeys) true) := by
  have hcm := createMissingFold create missing ([], [])
  have hde := deleteExtraFold delete extraIDs ([], [])
  have hck := clearKeysFold deleteKey unusedIDs ([], [])
  refine ⟨?_, ?_, ?_, ?_, ?_, ?_, ?_, ?_, ?_⟩
  · rw [createMissingFastlyTLSActivations, hcm]
    simp
  · rw [createMissingFastlyTLSActivations, hcm]
    simp only [List.nil_append]
    constructor
    · intro h
      by_cases hlen : (missing.filterMap (fun a =>
          (create a).map (fun e => "failed to create TLS activation for config "
            ++ a.configuration.id ++ ": " ++ e))).length > 0
      · rw [if_pos hlen] at h
        exact absurd h (by simp)
      · intro a ha
        have : missing.filterMap (fun a =>
            (create a).map (fun e => "failed to create TLS activation for config "
              ++ a.configuration.id ++ ": " ++ e)) = [] := by
          cases hfm : missing.filterMap (fun a =>
              (create a).map (fun e => "failed to create TLS activation for config "
                ++ a.configuration.id ++ ": " ++ e)) with
          | nil => rfl
          | cons x xs => rw [hfm] at hlen; simp at hlen
        rw [List.filterMap_eq_nil_iff] at this
        have := this a ha
        cases hc : create a with
        | none => rfl
        | some e => rw [hc] at this; simp at this
    · intro h
      have hfm : missing.filterMap (fun a =>
          (create a).map (fun e => "failed to create TLS activation for config "
            ++ a.configuration.id ++ ": " ++ e)) = [] := by
        rw [List.filterMap_eq_nil_iff]
        intro a ha
        rw [h a ha]
        rfl
      rw [hfm]
      simp
  · intro errs herrs
    rw [createMissingFastlyTLSActivations, hcm] at herrs
    simp only [List.nil_append] at herrs
    by_cases hlen : (missing.filterMap (fun a =>
        (create a).map (fun e => "failed to create TLS activation for config "
          ++ a.configuration.id ++ ": " ++ e))).length > 0
    · rw [if_pos hlen] at herrs
      exact (Option.some.injEq _ _ ▸ herrs).symm
    · rw [if_neg hlen] at herrs
      exact absurd herrs (by simp)
  · rw [deleteExtraFastlyTLSActivations, hde]
    simp
  · rw [deleteExtraFastlyTLSActivations, hde]
    simp only [List.nil_append]
    constructor
    · intro h
      by_cases hlen : (extraIDs.filterMap (fun i =>
          (delete i).map (fun e => "failed to delete TLS activation "
            ++ i ++ ": " ++ e))).length > 0
      · rw [if_pos hlen] at h
        exact absurd h (by simp)
      · intro i hi
        have : extraIDs.filterMap (fun i =>
            (delete i).map (fun e => "failed to delete TLS activation "
              ++ i ++ ": " ++ e)) = [] := by
          cases hfm : extraIDs.filterMap (fun i =>
              (delete i).map (fun e => "failed to delete TLS activation "
                ++ i ++ ": " ++ e)) with
          | nil => rfl
          | cons x xs => rw [hfm] at hlen; simp at hlen
        rw [List.filterMap_eq_nil_iff] at this
        have := this i hi
        cases hc : delete i with
        | none => rfl
        | some e => rw [hc] at this; simp at this
    · intro h
      have hfm : extraIDs.filterMap (fun i =>
          (delete i).map (fun e => "failed to delete TLS activation "
            ++ i ++ ": " ++ e)) = [] := by
        rw [List.filterMap_eq_nil_iff]
        intro i hi
        rw [h i hi]
        rfl
      rw [hfm]
      simp
  · intro errs herrs
    rw [deleteExtraFastlyTLSActivations, hde] at herrs
    simp only [List.nil_append] at herrs
    by_cases hlen : (extraIDs.filterMap (fun i =>
        (delete i).map (fun e => "failed to delete TLS activation "
          ++ i ++ ": " ++ e))).length > 0
    · rw [if_pos hlen] at herrs
      exact (Option.some.injEq _ _ ▸ herrs).symm
    · rw [if_neg hlen] at herrs
      exact absurd herrs (by simp)
  · rw [clearFastlyUnusedPrivateKeys, hck]
    simp
  · rw [clearFastlyUnusedPrivateKeys, hck]
    simp
  · intro hpk h1 h2 h3 h4 h5
    simp [applyUnmanaged, hpk, h1, h2, h3, h4, List.length_pos, h5]

theorem batch_mutation_error_collection_witness :
    applyUnmanaged true
      { privateKeyUploaded := true, certificateStatus := "Synced",
        unusedPrivateKeyIDs := ["k1"] }
      (fun _ => some "boom") = .ok (some .clearUnusedPrivateKeys) true :=
  (batch_mutation_error_collection [] (fun _ => none) [] (fun _ => none) []
      (fun _ => none)
      { privateKeyUploaded := true, certificateStatus := "Synced",
        unusedPrivateKeyIDs := ["k1"] }
      (fun _ => some "boom")).2.2.2.2.2.2.2.2
    rfl (by decide) (by decide) rfl rfl (by decide)

/-- C6: the readiness gate returns not-ready exactly when the referenced
    certificate cannot be fetched, or its secret cannot be fetched, or the
    certificate's Ready condition is not explicitly True (absent, False or
    Unknown all count as not ready); exactly in these cases the pass
    schedules a fixed 30-second requeue, runs no observation step (hence no
    remote provider call), and propagates no error; otherwise observation
    proceeds. -/
theorem readiness_gate (getCert : Option Certificate)
    (getSecret : String → Option Secret) (steps : ObservationSteps) :
    (isSubjectReadyForReconciliation getCert getSecret = false ↔
      (getCert = none ∨
        ∃ cert, getCert = some cert ∧
          (getSecret cert.secretName = none ∨
            ¬∃ c ∈ cert.conditions, c.type = "Ready" ∧ c.status = "True"))) ∧
    (isSubjectReadyForReconciliation getCert getSecret = false →
      observeResources getCert getSecret steps =
        { subjectReady := false, observed := {}, requeueAfterSeconds := some 30,
          stepsRun := [], observationError := none }) ∧
    ((observeResources getCert getSecret steps).requeueAfterSeconds = some 30 ↔
      isSubjectReadyForReconciliation getCert getSecret = false) ∧
    (isSubjectReadyForReconciliation getCert getSecret = true →
      (observeResources getCert getSecret steps).subjectReady = true ∧
      (observeResources getCert getSecret steps).stepsRun ≠ []) := by
  have hready : ∀ h : isSubjectReadyForReconciliation getCert getSecret = true,
      (observeResources getCert getSecret steps).requeueAfterSeconds = none ∧
      (observeResources getCert getSecret steps).subjectReady = true ∧
      (observeResources getCert getSecret steps).stepsRun ≠ [] := by
    intro h
    obtain ⟨s1, s2, s3, s4⟩ := steps
    rw [observeResources, h]
    cases s1 <;> cases s2 <;> cases s3 <;> cases s4 <;> simp
  refine ⟨?_, ?_, ?_, ?_⟩
  · rw [isSubjectReadyForReconciliation]
    cases getCert with
    | none => simp [getCertificateAndTLSSecretFromSubject]
    | some cert =>
      cases hsec : getSecret cert.secretName with
      | none => simp [getCertificateAndTLSSecretFromSubject, hsec]
      | some secret =>
        simp only [getCertificateAndTLSSecretFromSubject, hsec]
        rw [List.any_eq_false]
        simp [hsec]
  · intro h
    rw [observeResources, h]
    simp
  · constructor
    · intro h
      cases hg : isSubjectReadyForReconciliation getCert getSecret with
      | false => rfl
      | true =>
        rw [(hready hg).1] at h
        exact absurd h (by simp)
    · intro h
      rw [observeResources, h]
      simp
  · intro h
    exact ⟨(hready h).2.1, (hready h).2.2⟩

theorem readiness_gate_witness :
    observeResources none (fun _ => none)
      { privateKeyExists := .ok false, certificateStatus := .ok "",
        activationState := .ok ([], []), unusedKeyIDs := .ok [] } =
      { subjectReady := false, observed := {}, requeueAfterSeconds := some 30,
        stepsRun := [], observationError := none } :=
  (readiness_gate none (fun _ => none)
      { privateKeyExists := .ok false, certificateStatus := .ok "",
        activationState := .ok ([], []), unusedKeyIDs := .ok [] }).2.1 rfl

theorem pemDecode_textPadding :
    ∀ pre input : List PEMLine, (∀ l ∈ pre, ∃ s, l = PEMLine.textLine s) →
      pemDecode (pre ++ input) = pemDecode input := by
  intro pre
  induction pre with
  | nil => intro input _; rfl
  | cons l rest ih =>
    intro input hl
    obtain ⟨s, rfl⟩ := hl l (by simp)
    rw [List.cons_append, pemDecode]
    exact ih input (fun x hx => hl x (by simp [hx]))

theorem collectBlock_append :
    ∀ (xs post : List PEMLine) (acc r : List String),
      collectBlock xs acc = some r → collectBlock (xs ++ post) acc = some r := by
  intro xs
  induction xs with
  | nil =>
    intro post acc r h
    rw [collectBlock] at h
    exact absurd h (by simp)
  | cons l rest ih =>
    intro post acc r h
    cases l with
    | beginMarker => rw [collectBlock] at h; exact absurd h (by simp)
    | endMarker => rw [List.cons_append, collectBlock]; rw [collectBlock] at h; exact h
    | dataLine s =>
      rw [List.cons_append, collectBlock]
      rw [collectBlock] at h
      exact ih post (acc ++ [s]) r h
    | textLine s => rw [collectBlock] at h; exact absurd h (by simp)

theorem pemDecode_append_of_some :
    ∀ (input post : List PEMLine) (r : List String),
      pemDecode input = some r → pemDecode (input ++ post) = some r := by
  intro input
  induction input with
  | nil =>
    intro post r h
    rw [pemDecode] at h
    exact absurd h (by simp)
  | cons l rest ih =>
    intro post r h
    cases l with
    | beginMarker =>
      rw [List.cons_append, pemDecode]
      rw [pemDecode] at h
      exact collectBlock_append rest post [] r h
    | endMarker =>
      rw [List.cons_append, pemDecode]
      rw [pemDecode] at h
      exact ih post r h
    | dataLine s =>
      rw [List.cons_append, pemDecode]
      rw [pemDecode] at h
      exact ih post r h
    | textLine s =>
      rw [List.cons_append, pemDecode]
      rw [pemDecode] at h
      exact ih post r h

theorem hexEncodeBytes_length (bs : List Nat) :
    (hexEncodeBytes bs).length = 2 * bs.length := by
  induction bs with
  | nil => rfl
  | cons b rest ih =>
    rw [hexEncodeBytes, List.foldr_cons]
    show ((hexDigit (b / 16) :: hexDigit (b % 16) :: hexEncodeBytes rest)).length =
      2 * (rest.length + 1)
    rw [List.length_cons, List.length_cons, ih]
    omega

/-- C10: the fingerprint is the 40-character hex SHA-1 of the PEM
    re-encoding of the DER-marshalled public key: it depends only on the
    decoded PEM block (hence is stable across repeated calls), text padding
    before the block and arbitrary trailing input after a complete block do
    not change it, success always yields a 40-character string, and it
    fails exactly when no PEM block is present or the block is not a
    parseable RSA private key. -/
theorem fingerprint_properties (prims : CryptoPrims) (keyPEM : List PEMLine) :
    (∀ keyPEM2, pemDecode keyPEM2 = pemDecode keyPEM →
      getPublicKeySHA1FromPEM prims keyPEM2 = getPublicKeySHA1FromPEM prims keyPEM) ∧
    (∀ pre, (∀ l ∈ pre, ∃ s, l = PEMLine.textLine s) →
      getPublicKeySHA1FromPEM prims (pre ++ keyPEM) =
        getPublicKeySHA1FromPEM prims keyPEM) ∧
    (∀ r, pemDecode keyPEM = some r →
      ∀ post, getPublicKeySHA1FromPEM prims (keyPEM ++ post) =
        getPublicKeySHA1FromPEM prims keyPEM) ∧
    (∀ sha1hex, getPublicKeySHA1FromPEM prims keyPEM = .ok sha1hex →
      sha1hex.length = 40) ∧
    ((∃ e, getPublicKeySHA1FromPEM prims keyPEM = .error e) ↔
      (pemDecode keyPEM = none ∨
        ∃ bs, pemDecode keyPEM = some bs ∧
          prims.parsePKCS1PrivateKey bs = none)) := by
  refine ⟨?_, ?_, ?_, ?_, ?_⟩
  · intro keyPEM2 hdec
    rw [getPublicKeySHA1FromPEM, getPublicKeySHA1FromPEM, hdec]
  · intro pre hpre
    rw [getPublicKeySHA1FromPEM, getPublicKeySHA1FromPEM,
      pemDecode_textPadding pre keyPEM hpre]
  · intro r hr post
    rw [getPublicKeySHA1FromPEM, getPublicKeySHA1FromPEM,
      pemDecode_append_of_some keyPEM post r hr, hr]
  · intro sha1hex hok
    rw [getPublicKeySHA1FromPEM] at hok
    cases hdec : pemDecode keyPEM with
    | none => rw [hdec] at hok; exact absurd hok (by simp)
    | some blockBytes =>
      rw [hdec] at hok
      cases hpriv : prims.parsePKCS1PrivateKey blockBytes with
      | none =>
        simp only [hpriv] at hok
        exact absurd hok (by simp)
      | some priv =>
        simp only [hpriv, Except.ok.injEq] at hok
        rw [← hok]
        show (hexEncodeBytes (prims.sha1Bytes
          (prims.pemEncodePublicKey (prims.marshalPKIXPublicKey priv.publicKey)))).length = 40
        rw [hexEncodeBytes_length, prims.sha1Len]
  · constructor
    · rintro ⟨e, he⟩
      rw [getPublicKeySHA1FromPEM] at he
      cases hdec : pemDecode keyPEM with
      | none => exact Or.inl rfl
      | some blockBytes =>
        rw [hdec] at he
        cases hpriv : prims.parsePKCS1PrivateKey blockBytes with
        | none => exact Or.inr ⟨blockBytes, rfl, hpriv⟩
        | some priv =>
          simp only [hpriv] at he
          exact absurd he (by simp)
    · rintro (hdec | ⟨bs, hdec, hpriv⟩)
      · rw [getPublicKeySHA1FromPEM, hdec]
        exact ⟨_, rfl⟩
      · rw [getPublicKeySHA1FromPEM, hdec]
        simp only [hpriv]
        exact ⟨_, rfl⟩

/-- Concrete library primitives for the C10 witness. -/
def witnessPrims : CryptoPrims where
  parsePKCS1PrivateKey := fun bs =>
    if bs = ["AAAA"] then some { publicKey := { n := 1, e := 1 } } else none
  marshalPKIXPublicKey := fun _ => [1, 2]
  pemEncodePublicKey := fun bs => bs
  sha1Bytes := fun _ => List.replicate 20 171
  sha1Len := fun _ => by simp

/-- A complete PEM private-key input for the C10 witness. -/
def witnessKeyPEM : List PEMLine :=
  [PEMLine.beginMarker, PEMLine.dataLine "AAAA", PEMLine.endMarker]

theorem fingerprint_properties_witness :
    getPublicKeySHA1FromPEM witnessPrims
        (PEMLine.textLine "a comment" :: witnessKeyPEM) =
      getPublicKeySHA1FromPEM witnessPrims witnessKeyPEM :=
  (fingerprint_properties witnessPrims witnessKeyPEM).2.1
    [PEMLine.textLine "a comment"]
    (by intro l hl; simp at hl; exact ⟨"a comment", hl⟩)

theorem lookupHas_iff (m : ActLookup) (k : ActKey) :
    lookupHas m k = true ↔ k ∈ lookupKeys m := by
  rw [lookupHas, lookupKeys, List.any_eq_true]
  constructor
  · rintro ⟨e, he, hk⟩
    rw [decide_eq_true_eq] at hk
    exact hk ▸ List.mem_map_of_mem _ he
  · intro hk
    obtain ⟨e, he, hk⟩ := List.mem_map.mp hk
    exact ⟨e, he, by rw [decide_eq_true_eq, hk]⟩

theorem lookupInsert_append (m : ActLookup) (k : ActKey) (a : TLSActivation)
    (hk : k ∉ lookupKeys m) : lookupInsert m k a = m ++ [(k, a)] := by
  induction m with
  | nil => rfl
  | cons e rest ih =>
    rw [lookupKeys, List.map_cons, List.mem_cons] at hk
    push_neg at hk
    rw [lookupInsert, if_neg (by exact fun h => hk.1 h.symm), List.cons_append,
      ih hk.2]

theorem lookupHas_erase_ne (m : ActLookup) (k k2 : ActKey) (hne : k2 ≠ k) :
    lookupHas (lookupErase m k) k2 = lookupHas m k2 := by
  rw [lookupHas, lookupHas, lookupErase]
  induction m with
  | nil => rfl
  | cons e rest ih =>
    rw [List.filter_cons]
    by_cases hek : e.1 = k
    · rw [show (!decide (e.1 = k)) = false by simp [hek]]
      rw [if_neg (by simp)]
      rw [List.any_cons]
      rw [show decide (e.1 = k2) = false by
        simp only [decide_eq_false_iff_not]
        rw [hek]
        exact fun h => hne h.symm]
      rw [Bool.false_or]
      exact ih
    · rw [show (!decide (e.1 = k)) = true by simp [hek]]
      rw [if_pos rfl]
      rw [List.any_cons, List.any_cons, ih]

theorem buildLookupAux :
    ∀ (acts : List TLSActivation) (m : ActLookup),
      (∀ a ∈ acts, actKey a ∉ lookupKeys m) → (acts.map actKey).Nodup →
      acts.foldl (fun m a => lookupInsert m (actKey a) a) m =
        m ++ acts.map (fun a => (actKey a, a)) := by
  intro acts
  induction acts with
  | nil => intro m _ _; simp
  | cons a rest ih =>
    intro m hdisj hnodup
    simp only [List.map_cons, List.nodup_cons] at hnodup
    simp only [List.foldl_cons, List.map_cons]
    rw [lookupInsert_append m (actKey a) a (hdisj a (by simp))]
    rw [ih (m ++ [(actKey a, a)]) ?_ hnodup.2]
    · simp
    · intro b hb
      have h1 := hdisj b (by simp [hb])
      have h2 : actKey b ≠ actKey a := by
        intro he
        exact hnodup.1 (he ▸ List.mem_map_of_mem actKey hb)
      rw [lookupKeys, List.map_append, List.mem_append]
      push_neg
      refine ⟨h1, ?_⟩
      simp [h2]

theorem buildLookup_eq (acts : List TLSActivation)
    (hnodup : (acts.map actKey).Nodup) :
    buildLookup acts = acts.map (fun a => (actKey a, a)) := by
  rw [buildLookup, buildLookupAux acts [] (by simp [lookupKeys]) hnodup,
    List.nil_append]

theorem filterMap_congr_mem {α β : Type} (l : List α) (f g : α → Option β)
    (h : ∀ x ∈ l, f x = g x) : l.filterMap f = l.filterMap g := by
  induction l with
  | nil => rfl
  | cons a rest ih =>
    rw [List.filterMap_cons, List.filterMap_cons, h a (by simp),
      ih (fun x hx => h x (by simp [hx]))]

theorem diffLoop_spec (cert : CustomTLSCertificate) :
    ∀ (pairs : List (TLSDomain × String)) (m : ActLookup)
      (missing : List TLSActivationData),
      (pairs.map (fun p => (p.1.id, p.2))).Nodup →
      diffLoop cert pairs m missing =
        (missing ++ pairs.filterMap (fun p =>
          if lookupHas m (p.1.id, p.2) then none
          else some ⟨cert, ⟨p.2⟩, p.1⟩),
         m.filter (fun e => !decide (e.1 ∈ pairs.map (fun p => (p.1.id, p.2))))) := by
  intro pairs
  induction pairs with
  | nil =>
    intro m missing _
    simp [diffLoop]
  | cons p rest ih =>
    obtain ⟨d, c⟩ := p
    intro m missing hnd
    simp only [List.map_cons, List.nodup_cons] at hnd
    obtain ⟨hk, hndr⟩ := hnd
    rw [diffLoop]
    by_cases hhas : lookupHas m (d.id, c) = true
    · rw [if_pos hhas, ih (lookupErase m (d.id, c)) missing hndr]
      simp only [Prod.mk.injEq]
      constructor
      · rw [List.filterMap_cons]
        simp only [if_pos hhas]
        congr 1
        apply filterMap_congr_mem
        intro q hq
        have hne : (q.1.id, q.2) ≠ (d.id, c) := by
          intro he
          exact hk (he ▸ List.mem_map_of_mem _ hq)
        rw [lookupHas_erase_ne m (d.id, c) (q.1.id, q.2) hne]
      · rw [lookupErase, List.filter_filter]
        apply List.filter_congr
        intro e _
        by_cases h1 : e.1 = (d.id, c) <;> by_cases h2 : e.1 ∈ rest.map (fun p => (p.1.id, p.2)) <;>
          simp [List.mem_cons, h1, h2]
    · rw [if_neg hhas]
      have hih := ih m (missing ++
        [{ certificate := cert, configuration := { id := c }, domain := d }]) hndr
      rw [hih]
      simp only [Prod.mk.injEq]
      constructor
      · rw [List.filterMap_cons]
        simp only [if_neg hhas]
        simp
      · apply List.filter_congr
        intro e he
        have hne : e.1 ≠ (d.id, c) := by
          intro h1
          rw [Bool.not_eq_true] at hhas
          rw [← h1] at hhas
          have : e.1 ∈ lookupKeys m := List.mem_map_of_mem _ he
          rw [← lookupHas_iff] at this
          rw [this] at hhas
          exact absurd hhas (by simp)
        simp [List.mem_cons, hne]

theorem mem_desiredPairs (domains : List TLSDomain) (configIDs : List String)
    (d : TLSDomain) (c : String) :
    (d, c) ∈ desiredPairs domains configIDs ↔ d ∈ domains ∧ c ∈ configIDs := by
  simp [desiredPairs]

theorem desiredKeys_nodup (domains : List TLSDomain) (configIDs : List String)
    (hdom : (domains.map TLSDomain.id).Nodup) (hcfg : configIDs.Nodup) :
    ((desiredPairs domains configIDs).map (fun p => (p.1.id, p.2))).Nodup := by
  induction domains with
  | nil => simp [desiredPairs]
  | cons d rest ih =>
    simp only [List.map_cons, List.nodup_cons] at hdom
    have hsplit : desiredPairs (d :: rest) configIDs =
        configIDs.map (fun c => (d, c)) ++ desiredPairs rest configIDs := by
      simp [desiredPairs]
    rw [hsplit, List.map_append, List.nodup_append]
    refine ⟨?_, ih hdom.2, ?_⟩
    · rw [List.map_map]
      exact hcfg.map (fun a b h => congrArg Prod.snd h)
    · intro x hx1 hx2
      rw [List.map_map] at hx1
      obtain ⟨c, _, rfl⟩ := List.mem_map.mp hx1
      obtain ⟨q, hq, hkey⟩ := List.mem_map.mp hx2
      obtain ⟨d2, c2⟩ := q
      have hd2 : d2 ∈ rest := ((mem_desiredPairs rest configIDs d2 c2).mp hq).1
      have : d2.id = d.id := congrArg Prod.fst hkey
      exact hdom.1 (this ▸ List.mem_map_of_mem TLSDomain.id hd2)

theorem lookupKeys_map_pair (acts : List TLSActivation) :
    lookupKeys (acts.map (fun a => (actKey a, a))) = acts.map actKey := by
  rw [lookupKeys, List.map_map]
  rfl

theorem activationStateForCert_eq (cert : CustomTLSCertificate)
    (configIDs : List String) (acts : List TLSActivation)
    (hkeys : (acts.map actKey).Nodup)
    (hdom : (cert.domains.map TLSDomain.id).Nodup) (hcfg : configIDs.Nodup) :
    activationStateForCert cert configIDs acts =
      ((desiredPairs cert.domains configIDs).filterMap (fun p =>
        if (p.1.id, p.2) ∈ acts.map actKey then none
        else some ⟨cert, ⟨p.2⟩, p.1⟩),
       (acts.filter
         (fun a => !decide (actKey a ∈ desiredKeys cert.domains configIDs))).map
           (fun a => a.id)) := by
  rw [activationStateForCert, getFastlyDomainAndConfigurationToActivationMap,
    fetchAllPages_eq, buildLookup_eq acts hkeys,
    diffLoop_spec cert (desiredPairs cert.domains configIDs) _ []
      (desiredKeys_nodup cert.domains configIDs hdom hcfg)]
  simp only [List.nil_append, Prod.mk.injEq]
  constructor
  · apply filterMap_congr_mem
    intro p _
    apply if_congr ?_ rfl rfl
    rw [lookupHas_iff, lookupKeys_map_pair]
  · rw [List.filter_map, List.map_map]
    have hpred : ((fun e : ActKey × TLSActivation =>
          !decide (e.1 ∈ (desiredPairs cert.domains configIDs).map
            (fun p => (p.1.id, p.2)))) ∘ (fun a => (actKey a, a))) =
        (fun a => !decide (actKey a ∈ desiredKeys cert.domains configIDs)) := by
      funext a
      rfl
    rw [hpred]
    rfl

/-- C2: the activation diff partitions every element of the desired matrix
    and the actual activation set into exactly one of kept, missing, extra:
    an actual activation whose (domain, configuration) key is in the
    desired matrix is kept and never emitted as extra, one whose key is not
    is emitted as extra; a desired pair backed by an actual activation
    yields no missing triple, one not backed yields exactly a
    (certificate, configuration-ID placeholder, domain) missing triple;
    extra IDs come only from non-desired actual activations and missing
    triples only from unmatched desired pairs — so kept and extra are
    disjoint. -/
theorem activation_diff_partition (cert : CustomTLSCertificate)
    (configIDs : List String) (acts : List TLSActivation)
    (hkeys : (acts.map actKey).Nodup)
    (hids : (acts.map TLSActivation.id).Nodup)
    (hdom : (cert.domains.map TLSDomain.id).Nodup)
    (hcfg : configIDs.Nodup) :
    (∀ a ∈ acts,
      (actKey a ∈ desiredKeys cert.domains configIDs ∧
        a.id ∉ (activationStateForCert cert configIDs acts).2) ∨
      (actKey a ∉ desiredKeys cert.domains configIDs ∧
        a.id ∈ (activationStateForCert cert configIDs acts).2)) ∧
    (∀ d ∈ cert.domains, ∀ c ∈ configIDs,
      ((d.id, c) ∈ acts.map actKey ∧
        ∀ t ∈ (activationStateForCert cert configIDs acts).1,
          ¬(t.domain.id = d.id ∧ t.configuration.id = c)) ∨
      ((d.id, c) ∉ acts.map actKey ∧
        ∃ t ∈ (activationStateForCert cert configIDs acts).1,
          t.certificate = cert ∧ t.domain = d ∧ t.configuration = ⟨c⟩)) ∧
    (∀ i ∈ (activationStateForCert cert configIDs acts).2,
      ∃ a ∈ acts, a.id = i ∧
        actKey a ∉ desiredKeys cert.domains configIDs) ∧
    (∀ t ∈ (activationStateForCert cert configIDs acts).1,
      t.certificate = cert ∧ ∃ d ∈ cert.domains, ∃ c ∈ configIDs,
        t.domain = d ∧ t.configuration = ⟨c⟩ ∧
        (d.id, c) ∉ acts.map actKey) := by
  have heq := activationStateForCert_eq cert configIDs acts hkeys hdom hcfg
  rw [heq]
  refine ⟨?_, ?_, ?_, ?_⟩
  · intro a ha
    by_cases hk : actKey a ∈ desiredKeys cert.domains configIDs
    · left
      refine ⟨hk, ?_⟩
      intro hmem
      obtain ⟨b, hb, hbid⟩ := List.mem_map.mp hmem
      have hbf := List.mem_filter.mp hb
      have hbk : actKey b ∉ desiredKeys cert.domains configIDs := by
        simpa using hbf.2
      have hab : b = a := List.inj_on_of_nodup_map hids hbf.1 ha hbid
      exact hbk (hab ▸ hk)
    · right
      refine ⟨hk, ?_⟩
      apply List.mem_map_of_mem
      rw [List.mem_filter]
      exact ⟨ha, by simpa using hk⟩
  · intro d hd c hc
    by_cases hk : (d.id, c) ∈ acts.map actKey
    · left
      refine ⟨hk, ?_⟩
      intro t ht hdc
      obtain ⟨p, hp, hfp⟩ := List.mem_filterMap.mp ht
      by_cases hkp : (p.1.id, p.2) ∈ acts.map actKey
      · rw [if_pos hkp] at hfp
        exact absurd hfp (by simp)
      · rw [if_neg hkp] at hfp
        have ht2 : t = ⟨cert, ⟨p.2⟩, p.1⟩ := by
          injection hfp with h
          exact h.symm
        rw [ht2] at hdc
        have h1 : p.1.id = d.id := hdc.1
        have h2 : p.2 = c := hdc.2
        exact hkp (by rw [h1, h2]; exact hk)
    · right
      refine ⟨hk, ⟨cert, ⟨c⟩, d⟩, ?_, rfl, rfl, rfl⟩
      apply List.mem_filterMap.mpr
      exact ⟨(d, c), (mem_desiredPairs cert.domains configIDs d c).mpr ⟨hd, hc⟩,
        by rw [if_neg hk]⟩
  · intro i hi
    obtain ⟨b, hb, hbid⟩ := List.mem_map.mp hi
    have hbf := List.mem_filter.mp hb
    exact ⟨b, hbf.1, hbid, by simpa using hbf.2⟩
  · intro t ht
    obtain ⟨p, hp, hfp⟩ := List.mem_filterMap.mp ht
    by_cases hkp : (p.1.id, p.2) ∈ acts.map actKey
    · rw [if_pos hkp] at hfp
      exact absurd hfp (by simp)
    · rw [if_neg hkp] at hfp
      obtain ⟨d2, c2⟩ := p
      have ht2 : t = ⟨cert, ⟨c2⟩, d2⟩ := by
        injection hfp with h
        exact h.symm
      have hmem := (mem_desiredPairs cert.domains configIDs d2 c2).mp hp
      subst ht2
      exact ⟨rfl, d2, hmem.1, c2, hmem.2, rfl, rfl, hkp⟩

/-- A concrete matched certificate (two domains) for the C2 witness. -/
def certDiffW : CustomTLSCertificate :=
  { id := "cid", name := "crt", serialNumber := "1",
    domains := [{ id := "d1" }, { id := "d2" }] }

/-- A concrete actual activation, on the (d1, c1) cell of the matrix. -/
def actW : TLSActivation :=
  { id := "a1", domain := { id := "d1" }, configuration := { id := "c1" } }

theorem activation_diff_partition_witness :
    (actKey actW ∈ desiredKeys certDiffW.domains ["c1", "c2"] ∧
      actW.id ∉ (activationStateForCert certDiffW ["c1", "c2"] [actW]).2) ∨
    (actKey actW ∉ desiredKeys certDiffW.domains ["c1", "c2"] ∧
      actW.id ∈ (activationStateForCert certDiffW ["c1", "c2"] [actW]).2) :=
  (activation_diff_partition certDiffW ["c1", "c2"] [actW] (by decide) (by decide)
    (by decide) (by decide)).1 actW (by decide)

end FastlySync
